import Mathlib

/-!
# Verification of the SonicShuffle music engine

This development embeds the SonicShuffle sources (`SonicShuffle.js`,
`SonicUtils.js`, `Music.js`, `Music.Mixins.js`) as Lean definitions and
proves or refutes the specification claims about them.

Modelling conventions:
* JS numbers are modelled as `ℚ` (no floating point claims are made);
  `Math.random()` draws are passed explicitly as a parameter `r : ℚ`
  with `0 ≤ r < 1`.
* JS `null`/`undefined` is modelled with `Option`; a thrown JS exception
  is modelled as `none` (for functions that can only throw) or as
  `Except.error` (where the thrown error matters).
* jQuery deferred objects are modelled as numbered futures carrying a
  status; their registered callbacks are either hardwired (when the
  source registers a fixed closure) or defunctionalised (for `Music.js`).
* `trigger(evt)` appends the event to an event log; user-registered
  listeners are outside the state except where a claim is about their
  effect (the `fullcycle` event inside `moveToSucessorState`), in which
  case the combined listener effect is an explicit function parameter.
-/

set_option maxHeartbeats 1000000
set_option synthInstance.maxHeartbeats 400000

/-- Play states of a Shuffle and of a Track (`'stopped' | 'playing' | 'paused'`). -/
inductive PlayState where
  | stopped
  | playing
  | paused
deriving DecidableEq, Repr

/-- The `end` option of a Shuffle: `'section' | 'cycle' | 'fullcycle' | 'loop'`. -/
inductive EndScope where
  | sectionScope
  | cycleScope
  | fullcycleScope
  | loopScope
deriving DecidableEq, Repr

/-- Events a Shuffle can `trigger`; only the ones the claims mention carry data. -/
inductive MEvent where
  | playE
  | pauseE
  | stopE
  | muteE (isOn : Bool)
  | volumeE (v : ℚ)
  | fullcycleE
  | sectionBeginE
  | sectionEndE
  | cycleBeginE
  | cycleEndE
  | finaleE
  | endE
deriving DecidableEq, Repr

/-- A Track (Howl) as seen through the capability interface the Shuffle uses:
play state, gain, mute flag and whether its own fade is in flight. -/
structure Track where
  id : ℕ
  tstate : PlayState
  tgain : ℚ
  tmuted : Bool
  tfading : Bool
deriving DecidableEq, Repr

/-- Default Track used only as the `getD` fallback in statements. -/
def dTrack : Track :=
  { id := 0, tstate := PlayState.stopped, tgain := 0, tmuted := false, tfading := false }

/-- Status of a jQuery deferred. -/
inductive FStat where
  | pendingF
  | resolvedF
  | rejectedF
deriving DecidableEq, Repr

/-- `this._fading`: a plain object; `priority` and `promise` may each be unset. -/
structure FadingRec where
  fpriority : Option ℤ
  fpromise : Option ℕ
deriving DecidableEq, Repr

/-- The empty `{}` object `this._fading` is reset to. -/
def emptyFading : FadingRec := { fpriority := none, fpromise := none }

/-- The state of one `Music.SonicShuffle` object (`SonicShuffle.js`).
`section_set = some (-1)` designates the intro, `none` is JS `null` (or `NaN`
after a `% 0`, which behaves the same for every operation modelled here). -/
structure Shuffle where
  gain : ℚ
  intro : Option Track
  sections : List (List Track)
  section_states : List (List Bool)
  muted : Bool
  has_overlaps : Bool
  endScope : EndScope
  end_stop : Bool
  section_set : Option ℤ
  sectionIdx : Option ℤ
  state : PlayState
  fading : FadingRec
  futures : List (ℕ × FStat)
  nextFut : ℕ
  events : List MEvent
  logs : List String
deriving DecidableEq, Repr

/-- `SonicUtils.clamp(value, min, max) = Math.max(Math.min(value, max), min)`. -/
def clamp {α : Type} [LinearOrder α] (value lo hi : α) : α :=
  max (min value hi) lo

/-- `SonicUtils.sum`: sums a list (loop from the last index down; order is
irrelevant over `ℚ`). -/
def jsSum (list : List ℚ) : ℚ :=
  list.foldr (fun x acc => x + acc) 0

/-- JS `Math.round(x) = ⌊x + 0.5⌋` (round half towards +∞). -/
def jsRound (x : ℚ) : ℤ :=
  ⌊x + 1/2⌋

/-- `SonicUtils.random_index(array)`: `Math.round(Math.random() * (array.length - 1))`,
`undefined` on an empty array.  The random draw `r` is explicit. -/
def random_index {α : Type} (r : ℚ) (array : List α) : Option ℕ :=
  if array.length = 0 then none
  else some (jsRound (r * ((array.length : ℚ) - 1))).toNat

/-- `SonicUtils.random_choice(array)`: `array[random_index(array)]`
(`undefined`, i.e. `none`, when out of range). -/
def random_choice {α : Type} (r : ℚ) (array : List α) : Option α :=
  if array.length = 0 then none
  else match random_index r array with
    | none => none
    | some i => array[i]?

/-- `SonicUtils.biased_random_index(weights)`.  The single `Math.random()` draw
that the taken path consumes is the explicit `r` (the walk's fallback draw,
dead for `0 ≤ r < 1`, reuses `r`). -/
def biased_random_index (r : ℚ) (weights : List ℚ) : Option ℕ :=
  if weights.length = 0 then none
  else
    let total := jsSum weights
    if total = 0 then random_index r weights
    else
      let magicnumber := r * total
      match walkAccum weights magicnumber 0 0 with
      | some i => some i
      | none => random_index r weights
where
  /-- The accumulation loop: return the first index whose running total is
  `≥ magicnumber`. -/
  walkAccum : List ℚ → ℚ → ℚ → ℕ → Option ℕ
    | [], _, _, _ => none
    | w :: ws, magic, acc, i =>
      if acc + w ≥ magic then some i else walkAccum ws magic (acc + w) (i + 1)

/-- `resetSectionsPlayed(sections)`: an all-`true` grid with the shape of
`sections`. -/
def resetSectionsPlayed (sections : List (List Track)) : List (List Bool) :=
  sections.map (fun sectionset => sectionset.map (fun _ => true))

/-- `b.reduce(or)` on a boolean row: JS `Array.prototype.reduce` with no
initial value throws a `TypeError` on an empty array (`none`). -/
def reduceOr (row : List Bool) : Option Bool :=
  match row with
  | [] => none
  | b :: rest => some (rest.foldl (fun x y => x || y) b)

/-- `cycleExists(visitgraph)`: `visitgraph.reduce((a, b) => a && b.reduce(or), true)`.
`&&` short-circuits, so once the accumulator is `false` later rows (even empty
ones) are not reduced; an empty row reached while the accumulator is still
`true` throws (`none`). -/
def cycleExists (visitgraph : List (List Bool)) : Option Bool :=
  visitgraph.foldl
    (fun a b =>
      match a with
      | none => none
      | some false => some false
      | some true => reduceOr b)
    (some true)

/-- `Music.SonicShuffle.prototype.isLastSection`.  In the `fullcycle` branch JS
`&&` evaluates `cycleExists` only when `section_set === sections.length - 1`,
and that call may throw (`none`). -/
def isLastSection (s : Shuffle) : Option Bool :=
  match s.endScope with
  | EndScope.sectionScope => some true
  | EndScope.cycleScope => some (s.section_set = some ((s.sections.length : ℤ) - 1))
  | EndScope.fullcycleScope =>
    if s.section_set = some ((s.sections.length : ℤ) - 1) then
      (cycleExists s.section_states).map (fun b => !b)
    else
      some false
  | EndScope.loopScope => some false

/-- JS arithmetic coercion of `null` (and of an absent value) to `0`;
`this.section_set + 1` with `section_set === null` evaluates to `1`. -/
def jsNullNum (x : Option ℤ) : ℤ :=
  x.getD 0

/-- The eligible indices of a visitation row: mirrors the `counter`-based
`map` followed by `filter(x => x !== null)` in `moveToSucessorState`. -/
def possibleIdx : List Bool → ℕ → List ℕ
  | [], _ => []
  | b :: rest, counter =>
    if b then counter :: possibleIdx rest (counter + 1)
    else possibleIdx rest (counter + 1)

/-- `Music.SonicShuffle.prototype.nowPlaying`.  JS distinguishes `null` and
`undefined` positions but both produce "no track"; indexing past the
`sections` array (which would throw) is also modelled as `none`. -/
def nowPlaying (s : Shuffle) : Option Track :=
  match s.section_set, s.sectionIdx with
  | none, _ => none
  | _, none => none
  | some set, some sec =>
    if set = -1 then s.intro
    else if set < 0 ∨ sec < 0 then none
    else
      match s.sections[set.toNat]? with
      | none => none
      | some row => row[sec.toNat]?

/-- `Music.SonicShuffle.prototype.mute`: set the flag, mute every owned
Track (`forEachSection` covers the intro), trigger `mute`. -/
def mute (s : Shuffle) : Shuffle :=
  let s :=
    { s with
        muted := true,
        intro := s.intro.map (fun t : Track => { t with tmuted := true }),
        sections :=
          s.sections.map (fun ss : List Track =>
            ss.map (fun t : Track => { t with tmuted := true })) }
  { s with events := s.events ++ [MEvent.muteE true] }

/-- `Music.SonicShuffle.prototype.volume` (setter branch): clamp, store the
gain, trigger `volume`, then either re-`mute` (when muted) or propagate the
gain to every owned non-fading Track. -/
def volume (s : Shuffle) (vol : ℚ) : Shuffle :=
  let v := clamp vol 0 1
  let s := { s with gain := v, events := s.events ++ [MEvent.volumeE v] }
  if s.muted then mute s
  else
    { s with
        intro := s.intro.map (fun t => if t.tfading then t else { t with tgain := v }),
        sections :=
          s.sections.map (fun ss => ss.map (fun t => if t.tfading then t else { t with tgain := v })) }

/-- `Music.SonicShuffle.prototype.stop`: set state `stopped`, stop every
owned Track, null the position, reset the visitation grid, trigger `stop`. -/
def stop (s : Shuffle) : Shuffle :=
  let s := { s with state := PlayState.stopped }
  let s :=
    { s with
        intro := s.intro.map (fun t : Track => { t with tstate := PlayState.stopped }),
        sections :=
          s.sections.map (fun ss : List Track =>
            ss.map (fun t : Track => { t with tstate := PlayState.stopped })) }
  let s := { s with section_set := none, sectionIdx := none }
  let s := { s with section_states := resetSectionsPlayed s.sections }
  { s with events := s.events ++ [MEvent.stopE] }

/-- The tail of `moveToSucessorState` (lines 278-297): the play-state guard,
the eligible-index collection, the random section pick, marking the pick
consumed and returning `nowPlaying()`.  `none` models the `TypeError` thrown
when `section_states[section_set]` is `undefined`. -/
def advancePick (s : Shuffle) (r : ℚ) : Option (Shuffle × Option Track) :=
  if s.state ≠ PlayState.playing then some (s, none)
  else
    match s.section_set with
    | none => none
    | some m =>
      if 0 ≤ m ∧ m.toNat < s.section_states.length then
        let row := s.section_states.getD m.toNat []
        let possible := possibleIdx row 0
        let sec := random_choice r possible
        let s := { s with sectionIdx := sec.map (fun j => (j : ℤ)) }
        let s :=
          match sec with
          | some j => { s with section_states := s.section_states.set m.toNat (row.set j false) }
          | none => s
        some (s, nowPlaying s)
      else none

/-- `moveToSucessorState` (`SonicShuffle.js`, the automaton's advance step,
lines 268-276 plus the tail `advancePick`).  The combined effect of the
registered `fullcycle` listeners on the shuffle is the explicit parameter
`onFullcycle` (the source's `trigger` runs them before the visitation grid
is reset, and the `state` check right after exists because they may pause or
stop playback).  The `Math.random()` draw consumed by
`SonicUtils.random_choice` is the explicit `r`. -/
def moveToSucessorState (onFullcycle : Shuffle → Shuffle) (s : Shuffle) (r : ℚ) :
    Option (Shuffle × Option Track) :=
  let n := s.sections.length
  let s :=
    { s with
        section_set :=
          if n = 0 then none
          else some (Int.tmod (jsNullNum s.section_set + 1) (n : ℤ)) }
  if s.section_set = some 0 then
    match cycleExists s.section_states with
    | none => none
    | some c =>
      if c then advancePick s r
      else
        let s := onFullcycle { s with events := s.events ++ [MEvent.fullcycleE] }
        advancePick { s with section_states := resetSectionsPlayed s.sections } r
  else advancePick s r

/-- Entry guards of `Music.SonicShuffle.prototype.play` (lines 108-121):
`ret` is one of the three early returns, `threw` is the paused branch calling
`.play()` on a `null` current track, `main` falls through to the main
playback body (which schedules sections via `moveToSucessorState`). -/
inductive PlayEntryResult where
  | ret (s : Shuffle)
  | threw
  | main (s : Shuffle)
deriving DecidableEq, Repr

/-- The `play()` message logged when the sections list is empty. -/
def noSectionsMsg : String :=
  "There are no sections included in this sonic shuffle. Unable to initiate play."

/-- Update the currently playing Track in place (used by the paused-resume
branch of `play()`). -/
def updateNowPlaying (s : Shuffle) (f : Track → Track) : Shuffle :=
  match s.section_set, s.sectionIdx with
  | none, _ => s
  | _, none => s
  | some set, some sec =>
    if set = -1 then { s with intro := s.intro.map f }
    else if set < 0 ∨ sec < 0 then s
    else
      { s with
          sections :=
            s.sections.set set.toNat
              ((s.sections.getD set.toNat []).set sec.toNat
                (((s.sections.getD set.toNat []).getD sec.toNat dTrack) |> f)) }

/-- The entry of `play()`: already-playing and empty-sections early returns,
then the paused-resume branch. -/
def playEntry (s : Shuffle) : PlayEntryResult :=
  if s.state = PlayState.playing then PlayEntryResult.ret s
  else if s.sections.length = 0 then
    PlayEntryResult.ret { s with logs := s.logs ++ [noSectionsMsg] }
  else if s.state = PlayState.paused then
    match nowPlaying s with
    | none => PlayEntryResult.threw
    | some _ =>
      let s := updateNowPlaying s (fun t => { t with tstate := PlayState.playing })
      PlayEntryResult.ret { s with state := PlayState.playing }
  else PlayEntryResult.main s

/-- The JS `Error` thrown by `SonicUtils.assertDefined`. -/
inductive JsErr where
  | undefinedVariable
deriving DecidableEq, Repr

/-- Status of the future `fid` in a futures table (first entry wins, as a
fresh id is always appended at the end). -/
def lookupFut (futures : List (ℕ × FStat)) (fid : ℕ) : Option FStat :=
  (futures.find? (fun p => p.1 = fid)).map (fun p => p.2)

def setFutStatus (futures : List (ℕ × FStat)) (fid : ℕ) (st : FStat) : List (ℕ × FStat) :=
  futures.map (fun p => if p.1 = fid then (p.1, st) else p)

/-- Allocate a fresh future with the given status. -/
def newFuture (s : Shuffle) (st : FStat) : Shuffle × ℕ :=
  ({ s with futures := s.futures ++ [(s.nextFut, st)], nextFut := s.nextFut + 1 }, s.nextFut)

/-- `_this._fading.promise.reject()`: settle the future (a no-op unless it is
pending) and fire its creation-time `.always` callback, which clears
`this._fading` and the tick interval. -/
def rejectFadePromise (s : Shuffle) (fid : ℕ) : Shuffle :=
  match lookupFut s.futures fid with
  | some FStat.pendingF =>
    { s with futures := setFutStatus s.futures fid FStat.rejectedF, fading := emptyFading }
  | _ => s

/-- Arguments of `fade` (`normalizer` is modelled by the constant value the
supplied normalizer returns; the default returns `1`).  The `easing`
argument only matters inside ramp ticks, which no claim exercises; the
default easing closure is embedded separately as `defaultEasing`. -/
structure FadeArgs where
  fromArg : Option ℚ
  toArg : Option ℚ
  msec : Option ℚ
  priority : Option ℤ
  normalizer : Option ℚ
deriving DecidableEq, Repr

/-- The body of `fade` after the priority arbitration: record the lock
priority, then either the fast path (apply the final gain, resolve — the
`done` callback applies the volume once more and `always` clears `_fading`)
or the ramp path (apply the starting gain, leave a pending promise stored in
`_fading.promise`; the interval ticks happen outside this call). -/
def fadeBody (s : Shuffle) (fromV toV msec : ℚ) (prio : ℤ) (norm : ℚ) : Shuffle × ℕ :=
  let s := { s with fading := { fpriority := some prio, fpromise := none } }
  let muteVol : ℚ → ℚ := fun v => if s.muted then 0 else v
  if |toV - s.gain| < 1/100000 ∨ msec = 0 then
    let s := volume s (muteVol (toV * norm))
    let s := volume s (muteVol (toV * norm))
    let s := { s with fading := emptyFading }
    newFuture s FStat.resolvedF
  else
    let s := volume s (fromV * norm)
    let p := newFuture s FStat.pendingF
    ({ p.1 with fading := { fpriority := some prio, fpromise := some p.2 } }, p.2)

/-- `Music.SonicShuffle.prototype.fade`.  A thrown `assertDefined` error is
`Except.error` (the shuffle is returned unchanged alongside it, as a JS throw
leaves the object as it was).  On success the returned `ℕ` is the future
(deferred) handed back to the caller. -/
def fade (s : Shuffle) (args : FadeArgs) : Shuffle × Except JsErr ℕ :=
  let fromV := args.fromArg.getD s.gain
  match args.toArg with
  | none => (s, Except.error JsErr.undefinedVariable)
  | some toV =>
    match args.msec with
    | none => (s, Except.error JsErr.undefinedVariable)
    | some msec =>
      let prio := args.priority.getD 0
      let norm := args.normalizer.getD 1
      match s.fading.fpromise with
      | some fid =>
        match s.fading.fpriority with
        | some p =>
          if prio < p then
            let q := newFuture s FStat.rejectedF
            (q.1, Except.ok q.2)
          else
            let s := rejectFadePromise s fid
            let q := fadeBody s fromV toV msec prio norm
            (q.1, Except.ok q.2)
        | none =>
          let s := rejectFadePromise s fid
          let q := fadeBody s fromV toV msec prio norm
          (q.1, Except.ok q.2)
      | none =>
        let q := fadeBody s fromV toV msec prio norm
        (q.1, Except.ok q.2)

/-- `Music.SonicShuffle.prototype.isFading`. -/
def isFading (s : Shuffle) : Bool :=
  s.fading.fpromise.isSome

/-- `Music.SonicShuffle.prototype.cancelFade`: reject the in-flight fade only
when its recorded priority is `≤` the given one. -/
def cancelFade (s : Shuffle) (priorityArg : Option ℤ) : Shuffle :=
  let priority := priorityArg.getD 0
  match s.fading.fpromise, s.fading.fpriority with
  | some fid, some p => if p ≤ priority then rejectFadePromise s fid else s
  | _, _ => s

/-- `Music.Mixins.gainToPerceptualVolume`: `vol = vol || 0` coerces an
`undefined` argument to `0`, then `0.01 * Math.exp(4.605 * vol)`. -/
noncomputable def gainToPerceptualVolume (vol : Option ℝ) : ℝ :=
  0.01 * Real.exp (4.605 * vol.getD 0)

set_option linter.unusedVariables false in
/-- The default easing closure of `fade` (lines 430-434): its first statement
reads the hoisted, still-undefined local `gain` and feeds it through
`gainToPerceptualVolume`; the result is immediately overwritten by the
cosine expression before being clamped. -/
noncomputable def defaultEasing (t : ℝ) : ℝ :=
  let gain := gainToPerceptualVolume none
  let gain := 1 - Real.cos (Real.pi * t / 2)
  clamp gain 0 1

example : cycleExists [[true, false], [false, true]] = some true := by decide
example : cycleExists [[true], [false, false]] = some false := by decide
example : cycleExists [[]] = none := by decide
example : cycleExists [[false], []] = some false := by decide
example : cycleExists [] = some true := by decide
example : biased_random_index (1/8) [1, 3] = some 0 := by
  norm_num [biased_random_index, biased_random_index.walkAccum, jsSum, random_index, jsRound]
example : biased_random_index (1/2) [1, 3] = some 1 := by
  norm_num [biased_random_index, biased_random_index.walkAccum, jsSum, random_index, jsRound]
example : biased_random_index (1/2) [] = none := by
  norm_num [biased_random_index]
example : biased_random_index (1/2) [0, 0, 0] = some 1 := by
  norm_num [biased_random_index, jsSum, random_index, jsRound]
example : biased_random_index (1/8) [0, 0, 0] = some 0 := by
  norm_num [biased_random_index, jsSum, random_index, jsRound]

/-! ## Helper lemmas about `cycleExists` -/

theorem foldl_or_eq (rest : List Bool) (b : Bool) :
    rest.foldl (fun x y => x || y) b = (b || rest.any (fun x => x)) := by
  induction rest generalizing b with
  | nil => simp
  | cons c cs ih => simp [List.foldl_cons, ih, Bool.or_assoc]

theorem reduceOr_ne_nil (row : List Bool) (h : row ≠ []) :
    reduceOr row = some (row.any (fun b => b)) := by
  cases row with
  | nil => exact absurd rfl h
  | cons b bs => simp [reduceOr, foldl_or_eq]

theorem cycleExists_false_absorb (v : List (List Bool)) :
    v.foldl
      (fun a b =>
        match a with
        | none => none
        | some false => some false
        | some true => reduceOr b)
      (some false) = some false := by
  induction v with
  | nil => rfl
  | cons row rest ih => simpa using ih

theorem cycleExists_rows_nonempty (v : List (List Bool)) (h : ∀ row ∈ v, row ≠ []) :
    cycleExists v = some (v.all (fun row => row.any (fun b => b))) := by
  induction v with
  | nil => rfl
  | cons row rest ih =>
    have hrow : row ≠ [] := h row (List.mem_cons_self row rest)
    have hrest : ∀ q ∈ rest, q ≠ [] := fun q hq => h q (List.mem_cons_of_mem row hq)
    simp only [cycleExists, List.foldl_cons] at *
    rw [reduceOr_ne_nil row hrow]
    cases hany : row.any (fun b => b) with
    | true => simpa [hany] using ih hrest
    | false => simpa [hany] using cycleExists_false_absorb rest

/-- A quiescent Shuffle used to build the concrete instances appearing in
counterexamples and witnesses. -/
def baseShuffle : Shuffle :=
  { gain := 1, intro := none, sections := [], section_states := [],
    muted := false, has_overlaps := false, endScope := EndScope.fullcycleScope,
    end_stop := true, section_set := none, sectionIdx := none,
    state := PlayState.stopped, fading := emptyFading, futures := [],
    nextFut := 0, events := [], logs := [] }

/-- C2, counterexample: on the grid `[[]]` (one section set with no
sections — a row that is vacuously entirely false) `cycleExists` throws a
`TypeError` (`reduce` of an empty array with no initial value) instead of
returning `false` as the claim requires. -/
theorem c2_counterexample :
    cycleExists [[]] = none ∧
    (([[]] : List (List Bool)).all (fun row => row.any (fun b => b))) = false := by
  decide

/-- C2 (amended): for every visitation grid all of whose rows are non-empty,
`cycleExists` returns `true` iff every row contains at least one `true`
entry, and `false` iff at least one row is entirely `false`; on a grid with
an empty row reached while the running conjunction is still `true` it
instead throws. -/
theorem c2_theorem (v : List (List Bool)) (h : ∀ row ∈ v, row ≠ []) :
    (cycleExists v = some true ↔ ∀ row ∈ v, ∃ b ∈ row, b = true) ∧
    (cycleExists v = some false ↔ ∃ row ∈ v, ∀ b ∈ row, b = false) := by
  rw [cycleExists_rows_nonempty v h]
  constructor
  · simp [List.all_eq_true, List.any_eq_true]
  · simp [List.all_eq_false, List.any_eq_false]

/-- C2, witness: the amended theorem applied to a concrete grid. -/
theorem c2_witness :
    (cycleExists [[true, false], [false, false]] = some true ↔
      ∀ row ∈ [[true, false], [false, false]], ∃ b ∈ row, b = true) ∧
    (cycleExists [[true, false], [false, false]] = some false ↔
      ∃ row ∈ [[true, false], [false, false]], ∀ b ∈ row, b = false) :=
  c2_theorem [[true, false], [false, false]] (by decide)

/-- C3, counterexample: a Shuffle with one section set that is empty,
`endScope = 'fullcycle'` and `position.set = 0 = numSets - 1`: the claim
requires `isLastSection` to return a boolean (`true`, since the single row
has no `true` entry), but the code throws inside `cycleExists`. -/
theorem c3_counterexample :
    isLastSection
      { baseShuffle with
          sections := [[]], section_states := [[]],
          section_set := some 0, endScope := EndScope.fullcycleScope } = none := by
  decide

/-- C3 (amended): for every Shuffle all of whose visitation rows are
non-empty, `isLastSection` matches the claimed table: always `true` for
`'section'`; `position.set == numSets - 1` for `'cycle'`;
`position.set == numSets - 1` and no full cycle left for `'fullcycle'`
(including `numSets == 1`); always `false` for `'loop'`. -/
theorem c3_theorem (s : Shuffle) (h : ∀ row ∈ s.section_states, row ≠ []) :
    (s.endScope = EndScope.sectionScope → isLastSection s = some true) ∧
    (s.endScope = EndScope.cycleScope →
      isLastSection s = some (decide (s.section_set = some ((s.sections.length : ℤ) - 1)))) ∧
    (s.endScope = EndScope.fullcycleScope →
      isLastSection s =
        some ((decide (s.section_set = some ((s.sections.length : ℤ) - 1))) &&
          !(s.section_states.all (fun row => row.any (fun b => b))))) ∧
    (s.endScope = EndScope.loopScope → isLastSection s = some false) := by
  refine ⟨fun he => ?_, fun he => ?_, fun he => ?_, fun he => ?_⟩ <;>
    simp only [isLastSection, he]
  by_cases hset : s.section_set = some ((s.sections.length : ℤ) - 1)
  · rw [if_pos hset, cycleExists_rows_nonempty s.section_states h]
    simp [hset]
  · rw [if_neg hset]
    simp [hset]

/-- C3, witness: the boundary case of a single-section-set Shuffle under
`'fullcycle'` whose only row is exhausted: `isLastSection` reports `true`. -/
theorem c3_witness :
    isLastSection
      { baseShuffle with
          sections := [[dTrack]], section_states := [[false]],
          section_set := some 0, endScope := EndScope.fullcycleScope } = some true := by
  have h :=
    (c3_theorem
      { baseShuffle with
          sections := [[dTrack]], section_states := [[false]],
          section_set := some 0, endScope := EndScope.fullcycleScope }
      (by decide)).2.2.1 rfl
  exact h.trans (by decide)

/-- C8: after `stop()`, every owned Track (the intro, if present, and every
section of every section set) is stopped, the position is `{null, null}`,
the visitation grid is all-`true`, the play state is `'stopped'`, and a
`stop` event has been emitted. -/
theorem c8_theorem (s : Shuffle) :
    (∀ t ∈ (stop s).intro, t.tstate = PlayState.stopped) ∧
    (∀ ss ∈ (stop s).sections, ∀ t ∈ ss, t.tstate = PlayState.stopped) ∧
    (stop s).section_set = none ∧
    (stop s).sectionIdx = none ∧
    (∀ row ∈ (stop s).section_states, ∀ b ∈ row, b = true) ∧
    (stop s).state = PlayState.stopped ∧
    MEvent.stopE ∈ (stop s).events := by
  refine ⟨?_, ?_, rfl, rfl, ?_, rfl, ?_⟩
  · intro t ht
    simp only [stop, Option.mem_def, Option.map_eq_some'] at ht
    obtain ⟨t0, -, rfl⟩ := ht
    rfl
  · intro ss hss t ht
    simp only [stop, List.mem_map] at hss
    obtain ⟨ss0, -, rfl⟩ := hss
    simp only [List.mem_map] at ht
    obtain ⟨t0, -, rfl⟩ := ht
    rfl
  · intro row hrow b hb
    simp only [stop, resetSectionsPlayed, List.mem_map] at hrow
    obtain ⟨ss0, -, rfl⟩ := hrow
    simp only [List.mem_map] at hb
    obtain ⟨t0, -, rfl⟩ := hb
    rfl
  · simp [stop]

/-- C8, witness: the theorem applied to a concrete playing Shuffle with an
intro. -/
theorem c8_witness :
    ((stop
        { baseShuffle with
            intro := some { dTrack with tstate := PlayState.playing },
            sections := [[{ dTrack with tstate := PlayState.playing }]],
            section_states := [[false]], section_set := some 0,
            sectionIdx := some 0, state := PlayState.playing }).intro.getD
      dTrack).tstate = PlayState.stopped ∧
    (stop
        { baseShuffle with
            intro := some { dTrack with tstate := PlayState.playing },
            sections := [[{ dTrack with tstate := PlayState.playing }]],
            section_states := [[false]], section_set := some 0,
            sectionIdx := some 0, state := PlayState.playing }).state =
      PlayState.stopped := by
  constructor
  · exact
      (c8_theorem
        { baseShuffle with
            intro := some { dTrack with tstate := PlayState.playing },
            sections := [[{ dTrack with tstate := PlayState.playing }]],
            section_states := [[false]], section_set := some 0,
            sectionIdx := some 0, state := PlayState.playing }).1 _ (by decide)
  · exact
      (c8_theorem
        { baseShuffle with
            intro := some { dTrack with tstate := PlayState.playing },
            sections := [[{ dTrack with tstate := PlayState.playing }]],
            section_states := [[false]], section_set := some 0,
            sectionIdx := some 0, state := PlayState.playing }).2.2.2.2.2.1

/-- C10: the default easing of `fade` is extensionally
`t ↦ clamp(1 − cos(π·t/2), 0, 1)`; its dead first statement evaluates
`gainToPerceptualVolume` on the undefined local (which coerces the argument
to `0` and yields `0.01` without throwing) and is immediately overwritten. -/
theorem c10_theorem (t : ℝ) :
    defaultEasing t = clamp (1 - Real.cos (Real.pi * t / 2)) 0 1 ∧
    gainToPerceptualVolume none = 0.01 := by
  constructor
  · rfl
  · simp [gainToPerceptualVolume]

/-- C9, counterexample: on a muted Shuffle, `volume(v)` re-mutes the owned
Tracks instead of setting their volume: a non-fading Track keeps its old
gain `1/2` although the claim requires it to receive the clamped `7/10`. -/
theorem c9_counterexample :
    (((volume
        { baseShuffle with
            muted := true,
            sections := [[{ dTrack with tgain := 1/2 }]] }
        (7/10)).sections.getD 0 []).getD 0 dTrack).tgain = 1/2 ∧
    (((volume
        { baseShuffle with
            muted := true,
            sections := [[{ dTrack with tgain := 1/2 }]] }
        (7/10)).sections.getD 0 []).getD 0 dTrack).tfading = false ∧
    ¬ ((1 : ℚ)/2 = clamp (7/10) 0 1) := by
  refine ⟨?_, ?_, ?_⟩
  · simp [volume, mute]
  · simp [volume, mute, dTrack]
  · norm_num [clamp, min_def, max_def]

/-- C9 (amended): `volume(v)` clamps `v` to `[0,1]`, stores it as the gain
and emits a `volume` event with that value; when the Shuffle is *not* muted
it propagates the clamped value to every owned non-fading Track and leaves
fading Tracks untouched; when the Shuffle is muted it instead re-mutes every
owned Track, leaving all Track gains unchanged. -/
theorem c9_theorem (s : Shuffle) (v : ℚ) :
    (volume s v).gain = clamp v 0 1 ∧
    MEvent.volumeE (clamp v 0 1) ∈ (volume s v).events ∧
    (s.muted = false →
      (volume s v).intro =
        s.intro.map (fun t => if t.tfading then t else { t with tgain := clamp v 0 1 }) ∧
      ∀ i j : ℕ,
        ((volume s v).sections[i]?.bind fun row => row[j]?) =
          (s.sections[i]?.bind fun row => row[j]?).map
            (fun t => if t.tfading then t else { t with tgain := clamp v 0 1 })) ∧
    (s.muted = true →
      (volume s v).muted = true ∧
      (volume s v).intro = s.intro.map (fun t => { t with tmuted := true }) ∧
      ∀ i j : ℕ,
        ((volume s v).sections[i]?.bind fun row => row[j]?) =
          (s.sections[i]?.bind fun row => row[j]?).map
            (fun t => { t with tmuted := true })) := by
  rcases Bool.eq_false_or_eq_true s.muted with hm | hm
  · refine ⟨by simp [volume, mute, hm], by simp [volume, mute, hm],
      fun hf => by rw [hm] at hf; exact absurd hf (by decide),
      fun _ => ⟨by simp [volume, mute, hm], by simp [volume, mute, hm], ?_⟩⟩
    intro i j
    simp only [volume, mute, hm, if_true, List.getElem?_map]
    cases hrow : s.sections[i]? with
    | none => simp
    | some row =>
      simp only [Option.map_some', Option.some_bind, List.getElem?_map]
  · refine ⟨by simp [volume, hm], by simp [volume, hm], fun _ => ⟨by simp [volume, hm], ?_⟩,
      fun ht => by rw [hm] at ht; exact absurd ht (by decide)⟩
    intro i j
    simp only [volume, hm, Bool.false_eq_true, if_false, List.getElem?_map]
    cases hrow : s.sections[i]? with
    | none => simp
    | some row =>
      simp only [Option.map_some', Option.some_bind, List.getElem?_map]

/-- C9, witness: the amended theorem applied to a concrete non-muted Shuffle
holding one non-fading Track. -/
theorem c9_witness :
    (volume { baseShuffle with sections := [[dTrack]] } 2).gain = clamp 2 0 1 ∧
    ((volume { baseShuffle with sections := [[dTrack]] } 2).sections[0]?.bind
        fun row => row[0]?) =
      (({ baseShuffle with sections := [[dTrack]] } : Shuffle).sections[0]?.bind
          fun row => row[0]?).map
        (fun t => if t.tfading then t else { t with tgain := clamp 2 0 1 }) :=
  ⟨(c9_theorem { baseShuffle with sections := [[dTrack]] } 2).1,
    ((c9_theorem { baseShuffle with sections := [[dTrack]] } 2).2.2.1 rfl).2 0 0⟩

/-- C7, counterexample: `fade` with the required `to` argument missing does
not report a logged or failed *result* — `SonicUtils.assertDefined` throws a
JS `Error` synchronously (modelled as `Except.error`), which propagates to
the caller as an exception.  The Shuffle itself is unchanged. -/
theorem c7_counterexample :
    fade baseShuffle
      { fromArg := none, toArg := none, msec := some 100, priority := none,
        normalizer := none } =
      (baseShuffle, Except.error JsErr.undefinedVariable) := rfl

/-- C7 (amended): `play()` on an empty sections list logs a message and
leaves every state field unchanged (and is a plain no-op when already
playing); `fade()` with `to` or `msec` missing *throws* an `Error`
synchronously — an exception, not a returned failed result — before any
state is touched, so the Shuffle is left unchanged (the report is atomic,
but it is an exception, contrary to the claim). -/
theorem c7_theorem (s : Shuffle) (args : FadeArgs) :
    (s.sections.length = 0 → s.state ≠ PlayState.playing →
      playEntry s = PlayEntryResult.ret { s with logs := s.logs ++ [noSectionsMsg] }) ∧
    (s.sections.length = 0 → s.state = PlayState.playing →
      playEntry s = PlayEntryResult.ret s) ∧
    (args.toArg = none ∨ args.msec = none →
      fade s args = (s, Except.error JsErr.undefinedVariable)) := by
  refine ⟨fun h0 hne => ?_, fun h0 hp => ?_, fun h => ?_⟩
  · simp [playEntry, h0, hne]
  · simp [playEntry, hp]
  · rcases h with ht | hm
    · simp [fade, ht]
    · cases ht : args.toArg with
      | none => simp [fade, ht]
      | some toV => simp [fade, ht, hm]

/-- C7, witness: the amended theorem applied to an empty stopped Shuffle and
to a fade call missing `msec`. -/
theorem c7_witness :
    playEntry baseShuffle =
      PlayEntryResult.ret { baseShuffle with logs := baseShuffle.logs ++ [noSectionsMsg] } ∧
    fade baseShuffle
      { fromArg := none, toArg := some 1, msec := none, priority := none,
        normalizer := none } =
      (baseShuffle, Except.error JsErr.undefinedVariable) :=
  ⟨(c7_theorem baseShuffle
      { fromArg := none, toArg := some 1, msec := none, priority := none,
        normalizer := none }).1 rfl (by decide),
    (c7_theorem baseShuffle
      { fromArg := none, toArg := some 1, msec := none, priority := none,
        normalizer := none }).2.2 (Or.inr rfl)⟩

/-! ## The rounding bug in `random_index` -/

theorem toNat_floor_eq_iff (a : ℚ) (h0 : 0 ≤ a) (k : ℕ) :
    (⌊a⌋.toNat = k) ↔ ((k : ℚ) ≤ a ∧ a < k + 1) := by
  have hf : (0 : ℤ) ≤ ⌊a⌋ := Int.floor_nonneg.mpr h0
  have hcast : ((⌊a⌋.toNat : ℤ)) = ⌊a⌋ := Int.toNat_of_nonneg hf
  have h1 : (⌊a⌋.toNat = k) ↔ ⌊a⌋ = (k : ℤ) := by omega
  rw [h1, Int.floor_eq_iff]
  push_cast
  tauto

theorem bri_allzero3 (r : ℚ) :
    biased_random_index r [0, 0, 0] = some (⌊r * 2 + 1/2⌋).toNat := by
  norm_num [biased_random_index, jsSum, random_index, jsRound]

/-- C4: the contract of `biased_random_index` evaluated on the code.  The
empty vector yields `undefined` and a positive-sum vector picks the first
index whose cumulative total reaches the draw, but the all-zero fallback is
*not* uniform: for three weights the chosen index is `Math.round(2r)`, whose
preimages in `[0,1)` are `[0,1/4)`, `[1/4,3/4)` and `[3/4,1)` — the middle
index is twice as likely as either end. -/
theorem c4_theorem :
    biased_random_index (1/2) ([] : List ℚ) = none ∧
    biased_random_index (1/8) [1, 3] = some 0 ∧
    biased_random_index (1/2) [1, 3] = some 1 ∧
    (∀ r : ℚ, 0 ≤ r → r < 1 →
      (biased_random_index r [0, 0, 0] = some 0 ↔ r < 1/4) ∧
      (biased_random_index r [0, 0, 0] = some 1 ↔ 1/4 ≤ r ∧ r < 3/4) ∧
      (biased_random_index r [0, 0, 0] = some 2 ↔ 3/4 ≤ r)) := by
  refine ⟨by norm_num [biased_random_index],
    by norm_num [biased_random_index, biased_random_index.walkAccum, jsSum, random_index, jsRound],
    by norm_num [biased_random_index, biased_random_index.walkAccum, jsSum, random_index, jsRound],
    fun r h0 h1 => ?_⟩
  have ha : (0 : ℚ) ≤ r * 2 + 1/2 := by linarith
  refine ⟨?_, ?_, ?_⟩
  · rw [bri_allzero3, Option.some_inj, toNat_floor_eq_iff _ ha 0]
    constructor
    · intro h; push_cast at h; linarith [h.2]
    · intro h; push_cast; constructor <;> linarith
  · rw [bri_allzero3, Option.some_inj, toNat_floor_eq_iff _ ha 1]
    constructor
    · intro h; push_cast at h; constructor <;> linarith [h.1, h.2]
    · intro h; push_cast; constructor <;> linarith [h.1, h.2]
  · rw [bri_allzero3, Option.some_inj, toNat_floor_eq_iff _ ha 2]
    constructor
    · intro h; push_cast at h; linarith [h.1]
    · intro h; push_cast; constructor <;> linarith

/-- C4, witness: concrete draws through each branch of the characterisation. -/
theorem c4_witness :
    biased_random_index (3/8) [0, 0, 0] = some 1 ∧
    biased_random_index (1/12) [0, 0, 0] = some 0 ∧
    biased_random_index (5/6) [0, 0, 0] = some 2 :=
  ⟨((c4_theorem.2.2.2 (3/8) (by norm_num) (by norm_num)).2.1).mpr (by norm_num),
    ((c4_theorem.2.2.2 (1/12) (by norm_num) (by norm_num)).1).mpr (by norm_num),
    ((c4_theorem.2.2.2 (5/6) (by norm_num) (by norm_num)).2.2).mpr (by norm_num)⟩

/-! ## Helper lemmas about the futures table and `volume` frame -/

theorem lookupFut_cons (a : ℕ × FStat) (fs : List (ℕ × FStat)) (fid : ℕ) :
    lookupFut (a :: fs) fid = if a.1 = fid then some a.2 else lookupFut fs fid := by
  by_cases h : a.1 = fid <;> simp [lookupFut, List.find?_cons, h]

theorem lookupFut_append (fs more : List (ℕ × FStat)) (fid : ℕ) :
    lookupFut (fs ++ more) fid =
      match lookupFut fs fid with
      | some st => some st
      | none => lookupFut more fid := by
  induction fs with
  | nil => simp [lookupFut]
  | cons a fs ih =>
    by_cases h : a.1 = fid <;> simp [List.cons_append, lookupFut_cons, h, ih]

theorem lookupFut_set_self (fs : List (ℕ × FStat)) (fid : ℕ) (st : FStat)
    (h : (lookupFut fs fid).isSome) :
    lookupFut (setFutStatus fs fid st) fid = some st := by
  induction fs with
  | nil => simp [lookupFut] at h
  | cons a fs ih =>
    by_cases ha : a.1 = fid
    · simp [setFutStatus, lookupFut_cons, ha]
    · simp only [lookupFut_cons, ha, if_false] at h
      simpa [setFutStatus, lookupFut_cons, ha] using ih h

theorem lookupFut_set_none (fs : List (ℕ × FStat)) (fid fid2 : ℕ) (st : FStat)
    (h : lookupFut fs fid2 = none) :
    lookupFut (setFutStatus fs fid st) fid2 = none := by
  induction fs with
  | nil => simp [setFutStatus, lookupFut]
  | cons a fs ih =>
    by_cases ha : a.1 = fid2
    · simp [lookupFut_cons, ha] at h
    · simp only [lookupFut_cons, ha, if_false] at h
      by_cases hb : a.1 = fid
      · have hne : ¬ fid = fid2 := by rw [← hb]; exact ha
        simpa [setFutStatus, lookupFut_cons, ha, hb, hne] using ih h
      · simpa [setFutStatus, lookupFut_cons, ha, hb] using ih h

theorem volume_futures (s : Shuffle) (v : ℚ) : (volume s v).futures = s.futures := by
  rcases Bool.eq_false_or_eq_true s.muted with hm | hm <;> simp [volume, mute, hm]

theorem volume_nextFut (s : Shuffle) (v : ℚ) : (volume s v).nextFut = s.nextFut := by
  rcases Bool.eq_false_or_eq_true s.muted with hm | hm <;> simp [volume, mute, hm]

theorem volume_fading (s : Shuffle) (v : ℚ) : (volume s v).fading = s.fading := by
  rcases Bool.eq_false_or_eq_true s.muted with hm | hm <;> simp [volume, mute, hm]

/-- C5: priority locking of `fade`/`cancelFade` on an entity with a fade in
flight at priority `p` (its pending promise is `fid`).  A request at lower
priority returns a fresh already-rejected future and touches nothing else; a
request at `≥ p` rejects the in-flight promise and (on the ramp path)
records its own priority as the new lock with a fresh pending promise;
`cancelFade(q)` rejects the in-flight fade iff `p ≤ q`.  All outcomes are
returned values — no exception. -/
theorem c5_theorem (s : Shuffle) (args : FadeArgs) (p : ℤ) (fid : ℕ) (toV m : ℚ)
    (hfp : s.fading.fpriority = some p)
    (hfid : s.fading.fpromise = some fid)
    (hpend : lookupFut s.futures fid = some FStat.pendingF)
    (hfresh : lookupFut s.futures s.nextFut = none)
    (hto : args.toArg = some toV) (hms : args.msec = some m) :
    (args.priority.getD 0 < p →
      fade s args =
        ({ s with
            futures := s.futures ++ [(s.nextFut, FStat.rejectedF)],
            nextFut := s.nextFut + 1 },
          Except.ok s.nextFut)) ∧
    (p ≤ args.priority.getD 0 →
      ∃ s2 rid, fade s args = (s2, Except.ok rid) ∧
        lookupFut s2.futures fid = some FStat.rejectedF ∧
        (¬ (|toV - s.gain| < 1/100000 ∨ m = 0) →
          s2.fading =
            { fpriority := some (args.priority.getD 0), fpromise := some rid } ∧
          lookupFut s2.futures rid = some FStat.pendingF)) ∧
    (∀ qc : ℤ,
      (p ≤ qc →
        cancelFade s (some qc) =
          { s with
              futures := setFutStatus s.futures fid FStat.rejectedF,
              fading := emptyFading }) ∧
      (qc < p → cancelFade s (some qc) = s)) := by
  refine ⟨fun hq => ?_, fun hq => ?_, fun qc => ⟨fun hq => ?_, fun hq => ?_⟩⟩
  · simp only [fade, hto, hms, hfid, hfp]
    rw [if_pos hq]
    simp [newFuture]
  · simp only [fade, hto, hms, hfid, hfp]
    rw [if_neg (not_lt.mpr hq)]
    simp only [rejectFadePromise, hpend]
    simp only [fadeBody]
    by_cases hfast : |toV - s.gain| < 1/100000 ∨ m = 0
    · rw [if_pos (by simpa using hfast)]
      refine ⟨_, _, rfl, ?_, fun hcon => absurd hfast hcon⟩
      simp only [newFuture, volume_futures, lookupFut_append,
        lookupFut_set_self s.futures fid FStat.rejectedF (by simp [hpend])]
    · rw [if_neg (by simpa using hfast)]
      refine ⟨_, _, rfl, ?_, fun _ => ⟨rfl, ?_⟩⟩
      · simp only [newFuture, volume_futures, lookupFut_append,
          lookupFut_set_self s.futures fid FStat.rejectedF (by simp [hpend])]
      · simp only [newFuture, volume_futures, volume_nextFut, lookupFut_append,
          lookupFut_set_none s.futures fid s.nextFut FStat.rejectedF hfresh,
          lookupFut_cons]
        simp [lookupFut]
  · simp only [cancelFade, hfid, hfp, Option.getD_some]
    rw [if_pos hq]
    simp only [rejectFadePromise, hpend]
  · simp only [cancelFade, hfid, hfp, Option.getD_some]
    rw [if_neg (not_le.mpr hq)]

/-- Shuffle with a fade in flight at priority `1` (promise `0`, pending). -/
def c5shuffle : Shuffle :=
  { baseShuffle with
      fading := { fpriority := some 1, fpromise := some 0 },
      futures := [(0, FStat.pendingF)],
      nextFut := 1 }

/-- C5, witness: on `c5shuffle`, a priority-0 fade request is denied with a
fresh rejected future and no other change, and `cancelFade(1)` rejects the
in-flight promise. -/
theorem c5_witness :
    fade c5shuffle
      { fromArg := none, toArg := some 0, msec := some 100, priority := some 0,
        normalizer := none } =
      ({ c5shuffle with
          futures := c5shuffle.futures ++ [(c5shuffle.nextFut, FStat.rejectedF)],
          nextFut := c5shuffle.nextFut + 1 },
        Except.ok c5shuffle.nextFut) ∧
    cancelFade c5shuffle (some 1) =
      { c5shuffle with
          futures := setFutStatus c5shuffle.futures 0 FStat.rejectedF,
          fading := emptyFading } :=
  ⟨(c5_theorem c5shuffle
      { fromArg := none, toArg := some 0, msec := some 100, priority := some 0,
        normalizer := none } 1 0 0 100 rfl rfl (by decide) (by decide) rfl rfl).1
      (by decide),
    ((c5_theorem c5shuffle
      { fromArg := none, toArg := some 0, msec := some 100, priority := some 0,
        normalizer := none } 1 0 0 100 rfl rfl (by decide) (by decide) rfl rfl).2.2 1).1
      le_rfl⟩

/-! ## Helper lemmas for the advance step -/

theorem cycleExists_none_absorb (v : List (List Bool)) :
    v.foldl
      (fun a b =>
        match a with
        | none => none
        | some false => some false
        | some true => reduceOr b)
      none = none := by
  induction v with
  | nil => rfl
  | cons row rest ih => simpa using ih

theorem cycleExists_true_rows (v : List (List Bool)) (h : cycleExists v = some true) :
    ∀ row ∈ v, row.any (fun b => b) = true := by
  induction v with
  | nil => simp
  | cons row rest ih =>
    intro q hq
    simp only [cycleExists, List.foldl_cons] at h
    cases hro : reduceOr row with
    | none =>
      rw [hro] at h
      exact absurd (h ▸ cycleExists_none_absorb rest) (by simp)
    | some b =>
      cases b with
      | false =>
        rw [hro] at h
        exact absurd (h ▸ cycleExists_false_absorb rest) (by simp)
      | true =>
        rcases List.mem_cons.mp hq with rfl | hq2
        · cases q with
          | nil => simp [reduceOr] at hro
          | cons x xs =>
            simp only [reduceOr, Option.some_inj, foldl_or_eq] at hro
            simpa using hro
        · rw [hro] at h
          exact ih h q hq2

theorem possibleIdx_mem (row : List Bool) (c : ℕ) :
    ∀ j ∈ possibleIdx row c, c ≤ j ∧ j - c < row.length ∧ row.getD (j - c) false = true := by
  induction row generalizing c with
  | nil => simp [possibleIdx]
  | cons b bs ih =>
    intro j hj
    by_cases hb : b = true
    · simp only [possibleIdx, hb, if_true, List.mem_cons] at hj
      rcases hj with rfl | hj2
      · simp [hb]
      · obtain ⟨h1, h2, h3⟩ := ih (c + 1) j hj2
        refine ⟨by omega, by simp; omega, ?_⟩
        have : j - c = (j - (c + 1)) + 1 := by omega
        rw [this]
        simpa using h3
    · simp only [possibleIdx, hb, if_false] at hj
      obtain ⟨h1, h2, h3⟩ := ih (c + 1) j hj
      refine ⟨by omega, by simp; omega, ?_⟩
      have : j - c = (j - (c + 1)) + 1 := by omega
      rw [this]
      simpa using h3

theorem possibleIdx_ne_nil (row : List Bool) (c : ℕ)
    (h : row.any (fun b => b) = true) : possibleIdx row c ≠ [] := by
  induction row generalizing c with
  | nil => simp at h
  | cons b bs ih =>
    by_cases hb : b = true
    · simp [possibleIdx, hb]
    · simp only [List.any_cons, Bool.or_eq_true] at h
      rcases h with h | h
      · exact absurd h hb
      · simpa [possibleIdx, hb] using ih (c + 1) h

theorem possibleIdx_replicate (n c : ℕ) :
    possibleIdx (List.replicate n true) c = List.range' c n := by
  induction n generalizing c with
  | zero => rfl
  | succ m ih => simp [List.replicate_succ, possibleIdx, ih, List.range'_succ]

theorem jsRound_toNat_lt (r : ℚ) (len : ℕ) (h1 : r < 1) (hlen : 0 < len) :
    (jsRound (r * ((len : ℚ) - 1))).toNat < len := by
  have hl1 : (1 : ℚ) ≤ (len : ℚ) := by exact_mod_cast hlen
  have hmul : r * ((len : ℚ) - 1) ≤ (len : ℚ) - 1 :=
    mul_le_of_le_one_left (by linarith) (le_of_lt h1)
  have hfl : jsRound (r * ((len : ℚ) - 1)) < (len : ℤ) := by
    rw [jsRound]
    refine Int.floor_lt.mpr ?_
    push_cast
    linarith
  omega

theorem random_choice_spec {α : Type} (r : ℚ) (l : List α) (d : α)
    (h1 : r < 1) (hne : l ≠ []) :
    random_choice r l = some (l.getD (jsRound (r * ((l.length : ℚ) - 1))).toNat d) ∧
    (jsRound (r * ((l.length : ℚ) - 1))).toNat < l.length := by
  have hlen : 0 < l.length := List.length_pos.mpr hne
  have hidx := jsRound_toNat_lt r l.length h1 hlen
  refine ⟨?_, hidx⟩
  simp only [random_choice, random_index, Nat.pos_iff_ne_zero.mp hlen, if_false]
  rw [List.getElem?_eq_getElem hidx, List.getD_eq_getElem l d hidx]

theorem resetSectionsPlayed_getD (secs : List (List Track)) (i : ℕ) :
    (resetSectionsPlayed secs).getD i [] =
      List.replicate ((secs.getD i []).length) true := by
  rw [resetSectionsPlayed, List.getD_eq_getElem?_getD, List.getElem?_map,
    List.getD_eq_getElem?_getD]
  cases h : secs[i]? with
  | none => rfl
  | some ss => simp [List.map_const']

theorem states_rows_nonempty (s : Shuffle)
    (h5 : s.section_states.length = s.sections.length)
    (h6 : ∀ i : ℕ, (s.section_states.getD i []).length = (s.sections.getD i []).length)
    (h7 : ∀ row ∈ s.sections, row ≠ []) :
    ∀ row ∈ s.section_states, row ≠ [] := by
  intro row hrow
  obtain ⟨i, hi, hget⟩ := List.getElem_of_mem hrow
  have hlen : row.length = (s.sections.getD i []).length := by
    rw [← hget, ← List.getD_eq_getElem s.section_states [] hi]
    exact h6 i
  have hisec : i < s.sections.length := h5 ▸ hi
  have hmem : s.sections.getD i [] ∈ s.sections := by
    rw [List.getD_eq_getElem s.sections [] hisec]
    exact List.getElem_mem hisec
  have := h7 _ hmem
  intro hnil
  rw [hnil] at hlen
  simp only [List.length_nil] at hlen
  exact this (List.eq_nil_of_length_eq_zero hlen.symm)

theorem advancePick_spec (sP : Shuffle) (r : ℚ) (kI : ℤ)
    (hst : sP.state = PlayState.playing)
    (hset : sP.section_set = some kI)
    (hkI0 : 0 ≤ kI)
    (hlt : kI.toNat < sP.section_states.length)
    (hany : (sP.section_states.getD kI.toNat []).any (fun b => b) = true)
    (hlenrow :
      (sP.section_states.getD kI.toNat []).length = (sP.sections.getD kI.toNat []).length)
    (hseclt : kI.toNat < sP.sections.length)
    (h11 : r < 1) :
    ∃ j : ℕ,
      advancePick sP r =
        some
          ({ sP with
              sectionIdx := some (j : ℤ),
              section_states :=
                sP.section_states.set kI.toNat
                  ((sP.section_states.getD kI.toNat []).set j false) },
            some ((sP.sections.getD kI.toNat []).getD j dTrack)) ∧
      random_choice r (possibleIdx (sP.section_states.getD kI.toNat []) 0) = some j ∧
      (sP.section_states.getD kI.toNat []).getD j false = true ∧
      j < (sP.section_states.getD kI.toNat []).length := by
  have hne : possibleIdx (sP.section_states.getD kI.toNat []) 0 ≠ [] :=
    possibleIdx_ne_nil _ 0 hany
  obtain ⟨hrc, hidxlt⟩ :=
    random_choice_spec r (possibleIdx (sP.section_states.getD kI.toNat []) 0) 0 h11 hne
  set possible := possibleIdx (sP.section_states.getD kI.toNat []) 0 with hposs
  set j := possible.getD (jsRound (r * ((possible.length : ℚ) - 1))).toNat 0 with hjdef
  have hjmem : j ∈ possible := by
    rw [hjdef, List.getD_eq_getElem possible 0 hidxlt]
    exact List.getElem_mem hidxlt
  obtain ⟨-, hjlt0, hjtrue0⟩ := possibleIdx_mem _ 0 j hjmem
  rw [Nat.sub_zero] at hjlt0 hjtrue0
  refine ⟨j, ?_, hrc, hjtrue0, hjlt0⟩
  rw [advancePick]
  rw [if_neg (by simp [hst])]
  rw [hset]
  simp only
  rw [if_pos ⟨hkI0, hlt⟩]
  rw [← hposs, hrc]
  simp only [Option.map_some']
  refine congrArg some (Prod.ext rfl ?_)
  simp only [nowPlaying, hset, Option.bind_eq_bind, Option.some_bind, Option.map_some',
    Option.pure_def]
  rw [if_neg (by omega)]
  rw [if_neg (by push_neg; constructor <;> omega)]
  have hrow2 :
      (sP.sections.getD kI.toNat []).length = sP.sections[kI.toNat].length := by
    rw [List.getD_eq_getElem sP.sections [] hseclt]
  have hj2 : j < sP.sections[kI.toNat].length := by omega
  rw [List.getElem?_eq_getElem hseclt]
  simp only [Int.toNat_natCast]
  rw [List.getElem?_eq_getElem hj2]
  refine congrArg some ?_
  rw [List.getD_eq_getElem?_getD sP.sections kI.toNat [], List.getElem?_eq_getElem hseclt]
  simp only [Option.getD_some]
  rw [List.getD_eq_getElem (sP.sections[kI.toNat]) dTrack hj2]

theorem replicate_any_true (m : ℕ) (hm : 0 < m) :
    (List.replicate m true).any (fun b => b) = true := by
  cases m with
  | zero => omega
  | succ q => simp [List.replicate_succ]

/-- The shuffle as the `fullcycle` listeners observe it: new set index
installed and the `fullcycle` event just triggered. -/
def fcNotify (s : Shuffle) (kI : ℤ) : Shuffle :=
  { s with section_set := some kI, events := s.events ++ [MEvent.fullcycleE] }

/-- C1 (amended): one advance of a playing Shuffle with non-empty sections.
`kI` is the new set index `(k + 1) mod numSets`.  If no wraparound reset is
due, no event is emitted and the automaton picks, via
`SonicUtils.random_choice` (the `Math.round`-biased draw), an eligible
section `j` of the new set, marks it consumed and returns its Track.  If a
reset is due, a `fullcycle` event is emitted to the listeners (`cb`), the
grid is reset to all-true; if a listener halted playback the step returns
`null`, otherwise the pick proceeds on the freshly reset row.  `h8` asks
only that the row being advanced into still has an eligible entry when no
wraparound happens (at a wraparound, `kI = 0`, the reset or the
`cycleExists` check supplies it). -/
theorem c1_theorem (cb : Shuffle → Shuffle) (s : Shuffle) (r : ℚ) (k kI : ℤ) (k' : ℕ)
    (h1 : s.state = PlayState.playing)
    (h2 : s.sections.length ≠ 0)
    (h3 : s.section_set = some k)
    (h4 : -1 ≤ k)
    (h5 : s.section_states.length = s.sections.length)
    (h6 : ∀ i : ℕ, (s.section_states.getD i []).length = (s.sections.getD i []).length)
    (h7 : ∀ row ∈ s.sections, row ≠ [])
    (h8 : (s.section_states.getD kI.toNat []).any (fun b => b) = true ∨ kI = 0)
    (h9 : ∀ x : Shuffle, (cb x).state ≠ PlayState.playing ∨ cb x = x)
    (h11 : r < 1)
    (hkI : kI = (k + 1) % (s.sections.length : ℤ))
    (hk' : k' = kI.toNat) :
    (¬ (kI = 0 ∧ cycleExists s.section_states = some false) →
      ∃ j : ℕ, ∃ s2 : Shuffle, ∃ t : Track,
        moveToSucessorState cb s r = some (s2, some t) ∧
        s2.section_set = some kI ∧
        s2.events = s.events ∧
        s2.sectionIdx = some (j : ℤ) ∧
        random_choice r (possibleIdx (s.section_states.getD k' []) 0) = some j ∧
        (s.section_states.getD k' []).getD j false = true ∧
        s2.section_states =
          s.section_states.set k' ((s.section_states.getD k' []).set j false) ∧
        t = (s.sections.getD k' []).getD j dTrack ∧
        s2.state = PlayState.playing) ∧
    ((kI = 0 ∧ cycleExists s.section_states = some false) →
      ((cb (fcNotify s kI)).state ≠ PlayState.playing →
        moveToSucessorState cb s r =
          some
            ({ cb (fcNotify s kI) with
                section_states := resetSectionsPlayed (cb (fcNotify s kI)).sections },
              none)) ∧
      ((cb (fcNotify s kI)).state = PlayState.playing →
        ∃ j : ℕ, ∃ s2 : Shuffle, ∃ t : Track,
          moveToSucessorState cb s r = some (s2, some t) ∧
          s2.section_set = some kI ∧
          MEvent.fullcycleE ∈ s2.events ∧
          s2.sectionIdx = some (j : ℤ) ∧
          random_choice r
            (possibleIdx (List.replicate (s.sections.getD k' []).length true) 0) = some j ∧
          j < (s.sections.getD k' []).length ∧
          s2.section_states =
            (resetSectionsPlayed s.sections).set k'
              ((List.replicate (s.sections.getD k' []).length true).set j false) ∧
          t = (s.sections.getD k' []).getD j dTrack)) := by
  subst hk'
  have hn0 : 0 < s.sections.length := Nat.pos_of_ne_zero h2
  have hnZ : ((s.sections.length : ℤ)) ≠ 0 := by exact_mod_cast h2
  have hkI0 : 0 ≤ kI := hkI ▸ Int.emod_nonneg _ hnZ
  have hkIlt : kI < (s.sections.length : ℤ) :=
    hkI ▸ Int.emod_lt_of_pos _ (by exact_mod_cast hn0)
  have hk'lt : kI.toNat < s.sections.length := by omega
  have hrows : ∀ row ∈ s.section_states, row ≠ [] := states_rows_nonempty s h5 h6 h7
  have hcyE :
      cycleExists s.section_states =
        some (s.section_states.all fun row => row.any fun b => b) :=
    cycleExists_rows_nonempty _ hrows
  have htmod : Int.tmod (k + 1) (s.sections.length : ℤ) = kI := by
    rw [hkI]
    exact Int.tmod_eq_emod (by omega) (by positivity)
  constructor
  · intro hnw
    have hall0 : kI = 0 → (s.section_states.all fun row => row.any fun b => b) = true := by
      intro hk0
      by_contra hb
      have hb' : (s.section_states.all fun row => row.any fun b => b) = false := by
        cases hx : (s.section_states.all fun row => row.any fun b => b)
        · rfl
        · exact absurd hx hb
      exact hnw ⟨hk0, by rw [hcyE, hb']⟩
    have hany : (s.section_states.getD kI.toNat []).any (fun b => b) = true := by
      rcases h8 with h | hk0
      · exact h
      · have hmem : s.section_states.getD kI.toNat [] ∈ s.section_states := by
          rw [List.getD_eq_getElem s.section_states [] (h5 ▸ hk'lt)]
          exact List.getElem_mem (h5 ▸ hk'lt)
        exact List.all_eq_true.mp (hall0 hk0) _ hmem
    have hmovA :
        moveToSucessorState cb s r = advancePick { s with section_set := some kI } r := by
      simp only [moveToSucessorState, h3, jsNullNum, Option.getD_some]
      rw [if_neg h2, htmod]
      by_cases hk0 : kI = 0
      · rw [if_pos (by simp [hk0])]
        simp only [hcyE, hall0 hk0]
        simp
      · rw [if_neg (by simp [hk0])]
    obtain ⟨j, heq, hrc, htrue, hjlt⟩ :=
      advancePick_spec { s with section_set := some kI } r kI h1 rfl hkI0
        (by simpa using h5 ▸ hk'lt) hany
        (h6 kI.toNat) hk'lt h11
    refine
      ⟨j,
        { s with
            section_set := some kI,
            sectionIdx := some (j : ℤ),
            section_states :=
              s.section_states.set kI.toNat
                ((s.section_states.getD kI.toNat []).set j false) },
        (s.sections.getD kI.toNat []).getD j dTrack,
        ?_, rfl, rfl, rfl, hrc, htrue, rfl, rfl, h1⟩
    exact hmovA ▸ heq
  · rintro ⟨hk0, hcyF⟩
    have hmovB :
        moveToSucessorState cb s r =
          advancePick
            { cb (fcNotify s kI) with
                section_states := resetSectionsPlayed (cb (fcNotify s kI)).sections } r := by
      simp only [moveToSucessorState, h3, jsNullNum, Option.getD_some, fcNotify]
      rw [if_neg h2, htmod]
      rw [if_pos (by simp [hk0])]
      simp only [hcyF]
      simp
    constructor
    · intro hstop
      rw [hmovB, advancePick, if_pos (by simpa using hstop)]
    · intro hplay
      rcases h9 (fcNotify s kI) with hne | hid
      · exact absurd hplay hne
      · rw [hid] at hmovB
        have hrowlen : 0 < (s.sections.getD kI.toNat []).length := by
          have hmem : s.sections.getD kI.toNat [] ∈ s.sections := by
            rw [List.getD_eq_getElem s.sections [] hk'lt]
            exact List.getElem_mem hk'lt
          have := h7 _ hmem
          exact List.length_pos.mpr this
        have hrowreset :
            (resetSectionsPlayed s.sections).getD kI.toNat [] =
              List.replicate (s.sections.getD kI.toNat []).length true :=
          resetSectionsPlayed_getD s.sections kI.toNat
        obtain ⟨j, heq, hrc, htrue, hjlt⟩ :=
          advancePick_spec
            { fcNotify s kI with section_states := resetSectionsPlayed s.sections }
            r kI h1 rfl hkI0
            (by
              show kI.toNat < (resetSectionsPlayed s.sections).length
              simpa [resetSectionsPlayed] using hk'lt)
            (by
              show ((resetSectionsPlayed s.sections).getD kI.toNat []).any (fun b => b) = true
              rw [hrowreset]
              exact replicate_any_true _ hrowlen)
            (by
              show ((resetSectionsPlayed s.sections).getD kI.toNat []).length =
                (s.sections.getD kI.toNat []).length
              rw [hrowreset]
              simp)
            hk'lt h11
        have hjlt2 : j < ((resetSectionsPlayed s.sections).getD kI.toNat []).length := hjlt
        rw [hrowreset] at hjlt2
        simp only [List.length_replicate] at hjlt2
        refine
          ⟨j,
            { s with
                section_set := some kI,
                events := s.events ++ [MEvent.fullcycleE],
                sectionIdx := some (j : ℤ),
                section_states :=
                  (resetSectionsPlayed s.sections).set kI.toNat
                    (((resetSectionsPlayed s.sections).getD kI.toNat []).set j false) },
            (s.sections.getD kI.toNat []).getD j dTrack,
            ?_, rfl, by simp, rfl, ?_, hjlt2, ?_, rfl⟩
        · rw [hmovB]
          exact heq
        · rw [← hrowreset]
          exact hrc
        · show (resetSectionsPlayed s.sections).set kI.toNat
              (((resetSectionsPlayed s.sections).getD kI.toNat []).set j false) =
            (resetSectionsPlayed s.sections).set kI.toNat
              ((List.replicate (s.sections.getD kI.toNat []).length true).set j false)
          rw [hrowreset]

def c1track0 : Track := { dTrack with id := 10 }

def c1track1 : Track := { dTrack with id := 11 }

def c1track2 : Track := { dTrack with id := 12 }

/-- A playing Shuffle with one section set of three sections, all eligible. -/
def c1shuffle : Shuffle :=
  { baseShuffle with
      state := PlayState.playing,
      sections := [[c1track0, c1track1, c1track2]],
      section_states := [[true, true, true]],
      section_set := some 0 }

/-- Advancing `c1shuffle` puts `Math.round(2r)` (as an index into the three
eligible sections) into `position.section`. -/
theorem c1_eval (r : ℚ) (h11 : r < 1) :
    (moveToSucessorState id c1shuffle r).map (fun p => p.1.sectionIdx) =
      some (some ((([0, 1, 2] : List ℕ).getD (⌊r * 2 + 1/2⌋).toNat 0 : ℕ) : ℤ)) := by
  obtain ⟨j, heq, hrc, -, -⟩ :=
    advancePick_spec { c1shuffle with section_set := some 0 } r 0 rfl rfl (by decide)
      (by decide) (by decide) (by decide) (by decide) h11
  have hrc2 : random_choice r ([0, 1, 2] : List ℕ) = some j := hrc
  obtain ⟨hrc3, -⟩ := random_choice_spec r ([0, 1, 2] : List ℕ) 0 h11 (by decide)
  have harg : (jsRound (r * ((([0, 1, 2] : List ℕ).length : ℚ) - 1))).toNat =
      (⌊r * 2 + 1/2⌋).toNat := by
    norm_num [jsRound]
  have h := hrc3.symm.trans hrc2
  rw [harg] at h
  have hj : j = ([0, 1, 2] : List ℕ).getD (⌊r * 2 + 1/2⌋).toNat 0 :=
    (Option.some_inj.mp h).symm
  subst hj
  have h0 : moveToSucessorState id c1shuffle r =
      advancePick { c1shuffle with section_set := some 0 } r := rfl
  rw [h0, heq]
  rfl

theorem c1_evalpt (r : ℚ) (h11 : r < 1) (z : ℤ) (hfl : ⌊r * 2 + 1/2⌋ = z) :
    (moveToSucessorState id c1shuffle r).map (fun p => p.1.sectionIdx) =
      some (some ((([0, 1, 2] : List ℕ).getD z.toNat 0 : ℕ) : ℤ)) := by
  rw [c1_eval r h11, hfl]

/-- The twelve equi-probable draws `k/12` refine the decision boundaries
`1/4` and `3/4` of the section pick for three eligible sections. -/
def c1grid : List ℚ :=
  [0, 1/12, 2/12, 3/12, 4/12, 5/12, 6/12, 7/12, 8/12, 9/12, 10/12, 11/12]

/-- C1, counterexample: across the twelve equi-probable draws `k/12`
(a grid refining the pick's decision boundaries `1/4` and `3/4`), advancing
`c1shuffle` selects the middle eligible section 6 times and each outer
section only 3 times — a uniform choice among the three eligible sections
would select each 4 times. -/
theorem c1_counterexample :
    c1grid.countP
        (fun r =>
          decide
            ((moveToSucessorState id c1shuffle r).map (fun p => p.1.sectionIdx) =
              some (some 1))) = 6 ∧
    c1grid.countP
        (fun r =>
          decide
            ((moveToSucessorState id c1shuffle r).map (fun p => p.1.sectionIdx) =
              some (some 0))) = 3 ∧
    c1grid.countP
        (fun r =>
          decide
            ((moveToSucessorState id c1shuffle r).map (fun p => p.1.sectionIdx) =
              some (some 2))) = 3 := by
  have e0 := c1_evalpt 0 (by norm_num) 0 (Int.floor_eq_iff.mpr ⟨by norm_num, by norm_num⟩)
  have e1 := c1_evalpt (1/12) (by norm_num) 0 (Int.floor_eq_iff.mpr ⟨by norm_num, by norm_num⟩)
  have e2 := c1_evalpt (2/12) (by norm_num) 0 (Int.floor_eq_iff.mpr ⟨by norm_num, by norm_num⟩)
  have e3 := c1_evalpt (3/12) (by norm_num) 1 (Int.floor_eq_iff.mpr ⟨by norm_num, by norm_num⟩)
  have e4 := c1_evalpt (4/12) (by norm_num) 1 (Int.floor_eq_iff.mpr ⟨by norm_num, by norm_num⟩)
  have e5 := c1_evalpt (5/12) (by norm_num) 1 (Int.floor_eq_iff.mpr ⟨by norm_num, by norm_num⟩)
  have e6 := c1_evalpt (6/12) (by norm_num) 1 (Int.floor_eq_iff.mpr ⟨by norm_num, by norm_num⟩)
  have e7 := c1_evalpt (7/12) (by norm_num) 1 (Int.floor_eq_iff.mpr ⟨by norm_num, by norm_num⟩)
  have e8 := c1_evalpt (8/12) (by norm_num) 1 (Int.floor_eq_iff.mpr ⟨by norm_num, by norm_num⟩)
  have e9 := c1_evalpt (9/12) (by norm_num) 2 (Int.floor_eq_iff.mpr ⟨by norm_num, by norm_num⟩)
  have e10 := c1_evalpt (10/12) (by norm_num) 2 (Int.floor_eq_iff.mpr ⟨by norm_num, by norm_num⟩)
  have e11 := c1_evalpt (11/12) (by norm_num) 2 (Int.floor_eq_iff.mpr ⟨by norm_num, by norm_num⟩)
  refine ⟨?_, ?_, ?_⟩ <;>
    simp only [c1grid, List.countP_cons, List.countP_nil,
      e0, e1, e2, e3, e4, e5, e6, e7, e8, e9, e10, e11] <;>
    decide

/-- C1, witness: the amended advance theorem applied to `c1shuffle` with the
draw `r = 1/2`, which selects eligible section 1, marks it consumed and
returns its Track. -/
theorem c1_witness :
    (moveToSucessorState id c1shuffle (1/2)).map
        (fun p => (p.1.section_set, p.1.sectionIdx, p.1.section_states, p.2)) =
      some (some 0, some 1, [[true, false, true]], some c1track1) := by
  obtain ⟨j, s2, t, hmov, hset, hev, hidx, hrc, htrue, hstates, ht, hst⟩ :=
    (c1_theorem id c1shuffle (1/2) 0 0 0 rfl (by decide) rfl (by decide) (by decide)
      (by intro i; cases i <;> rfl)
      (by
        intro row hrow
        rcases List.mem_singleton.mp hrow with rfl
        simp)
      (Or.inr rfl) (fun x => Or.inr rfl) (by norm_num) (by decide) rfl).1
      (by decide)
  have hposs : possibleIdx ([true, true, true] : List Bool) 0 = [0, 1, 2] := rfl
  have hrc2 : random_choice (1/2 : ℚ) ([0, 1, 2] : List ℕ) = some j := by
    rw [← hposs]
    exact hrc
  have hval : random_choice (1/2 : ℚ) ([0, 1, 2] : List ℕ) = some 1 := by
    norm_num [random_choice, random_index, jsRound]
  have hj : j = 1 := Option.some_inj.mp (hrc2.symm.trans hval)
  subst hj
  rw [hmov]
  simp only [Option.map_some']
  rw [hset, hidx, hstates, ht]
  rfl

/-! ## `Music.js`: the piece-switching session

`Music.play` (lines 50-92) and its collaborators.  jQuery deferreds are
numbered futures whose registered callbacks are defunctionalised as `WCont`;
callbacks fire synchronously on settling, and settling an already-settled
deferred is a no-op.  The external Track capability (the custom howler.js
build is not in the repository) is `WTrack`; its `fade` is modelled from the
spec: §4.3 FadeController, which matches `Music.SonicShuffle.fade`. -/

/-- Defunctionalised jQuery callbacks registered by `Music.js`. -/
inductive WCont where
  | applyFadeDone (piece : String) (v : ℚ)
  | clearFading (piece : String)
  | trackStopAlways (piece : String)
  | trackStopIfNotNowPlaying (piece : String)
  | whenDone (wid : ℕ) (parts : List ℕ)
  | whenFail (wid : ℕ)
  | resolveStopping (sid : ℕ)
  | installPiece (piece : String) (vol : ℚ)
deriving DecidableEq, Repr

/-- A library track as `Music.js` sees it (`loaded = false` models a lazy
factory thunk not yet invoked). -/
structure WTrack where
  loaded : Bool
  wstate : PlayState
  wgain : ℚ
  wmuted : Bool
  wfading : Option (ℤ × Option ℕ)
deriving DecidableEq, Repr

structure WFut where
  wfid : ℕ
  status : FStat
  doneCbs : List WCont
  failCbs : List WCont
deriving DecidableEq, Repr

/-- The module-level state of `Music.js`: `_library`, `_nowplaying.piece`,
`_volume`, `_mute`, `_state`, `_stopping_promise`, plus the futures heap. -/
structure World where
  library : List (String × WTrack)
  nowp : Option String
  mvolume : ℚ
  mmute : Bool
  mstate : PlayState
  stoppingId : Option ℕ
  wfutures : List WFut
  wnext : ℕ
deriving DecidableEq, Repr

def findFut (w : World) (fid : ℕ) : Option WFut :=
  w.wfutures.find? (fun f => f.wfid = fid)

def statusOf (w : World) (fid : ℕ) : Option FStat :=
  (findFut w fid).map (fun f => f.status)

def setStatus (w : World) (fid : ℕ) (st : FStat) : World :=
  { w with
      wfutures := w.wfutures.map (fun f => if f.wfid = fid then { f with status := st } else f) }

def addCb (w : World) (fid : ℕ) (dn : Bool) (c : WCont) : World :=
  { w with
      wfutures :=
        w.wfutures.map (fun f =>
          if f.wfid = fid then
            if dn then { f with doneCbs := f.doneCbs ++ [c] }
            else { f with failCbs := f.failCbs ++ [c] }
          else f) }

def newFut (w : World) (st : FStat) (dcs fcs : List WCont) : World × ℕ :=
  ({ w with
      wfutures :=
        w.wfutures ++ [{ wfid := w.wnext, status := st, doneCbs := dcs, failCbs := fcs }],
      wnext := w.wnext + 1 },
    w.wnext)

def lookupTrack (w : World) (piece : String) : Option WTrack :=
  (w.library.find? (fun p => p.1 = piece)).map (fun p => p.2)

def updTrack (w : World) (piece : String) (f : WTrack → WTrack) : World :=
  { w with library := w.library.map (fun p => if p.1 = piece then (p.1, f p.2) else p) }

/-- The fast-path test of `fade`, `Math.abs(to - this.gain) < 0.00001`,
computed on the cross-multiplied integer numerators so that it evaluates by
kernel reduction; `nearGain_iff` below proves it extensionally equal to the
source expression `|toV - g| < 1/100000`. -/
def nearGain (toV g : ℚ) : Bool :=
  decide (100000 * (toV.num * (g.den : ℤ) - g.num * (toV.den : ℤ)).natAbs < toV.den * g.den)

mutual

/-- jQuery `resolve`/`reject`: settle a pending future and fire its `done`
(resp. `fail`) callbacks synchronously; a no-op on a settled deferred. -/
def settleW (fuel : ℕ) (w : World) (fid : ℕ) (ok : Bool) : World :=
  match fuel with
  | 0 => w
  | fuel + 1 =>
    match findFut w fid with
    | none => w
    | some f =>
      if f.status = FStat.pendingF then
        let w := setStatus w fid (if ok then FStat.resolvedF else FStat.rejectedF)
        runConts fuel w (if ok then f.doneCbs else f.failCbs)
      else w
termination_by structural fuel

def runConts (fuel : ℕ) (w : World) (cs : List WCont) : World :=
  match fuel with
  | 0 => w
  | fuel + 1 =>
    match cs with
    | [] => w
    | c :: rest => runConts fuel (runCont fuel w c) rest
termination_by structural fuel

def runCont (fuel : ℕ) (w : World) (c : WCont) : World :=
  match fuel with
  | 0 => w
  | fuel + 1 =>
    match c with
    | WCont.applyFadeDone piece v =>
      updTrack w piece (fun t => { t with wgain := if t.wmuted then 0 else clamp v 0 1 })
    | WCont.clearFading piece => updTrack w piece (fun t => { t with wfading := none })
    | WCont.trackStopAlways piece =>
      updTrack w piece (fun t => { t with wstate := PlayState.stopped })
    | WCont.trackStopIfNotNowPlaying piece =>
      if w.nowp = some piece then w
      else updTrack w piece (fun t => { t with wstate := PlayState.stopped })
    | WCont.whenDone wid parts =>
      if parts.all (fun p => statusOf w p = some FStat.resolvedF) then settleW fuel w wid true
      else w
    | WCont.whenFail wid => settleW fuel w wid false
    | WCont.resolveStopping sid => settleW fuel w sid true
    | WCont.installPiece piece vol => installPieceW fuel w piece vol
termination_by structural fuel

/-- jQuery `.done` (`dn = true`) / `.fail` (`dn = false`): register, or fire
immediately when the deferred is already settled the matching way. -/
def attachW (fuel : ℕ) (w : World) (fid : ℕ) (dn : Bool) (c : WCont) : World :=
  match fuel with
  | 0 => w
  | fuel + 1 =>
    match findFut w fid with
    | none => w
    | some f =>
      match f.status with
      | FStat.pendingF => addCb w fid dn c
      | FStat.resolvedF => if dn then runCont fuel w c else w
      | FStat.rejectedF => if dn then w else runCont fuel w c
termination_by structural fuel

/-- jQuery `.always`. -/
def attachAlwaysW (fuel : ℕ) (w : World) (fid : ℕ) (c : WCont) : World :=
  match fuel with
  | 0 => w
  | fuel + 1 => attachW fuel (attachW fuel w fid true c) fid false c
termination_by structural fuel

/-- Modelled from the spec: `fade` of the external Track capability (§4.3
FadeController; the custom howler.js is not under `src/`).  Mirrors
`Music.SonicShuffle.prototype.fade`: priority arbitration against the
in-flight fade, `ε`/zero-duration fast path that applies the final gain and
resolves at once, else a ramp whose pending promise carries the final-gain
`done` callback and the clear-fading `always` callback and is resolved later
by `fadeTickW`. -/
def trackFadeW (fuel : ℕ) (w : World) (piece : String) (fromV toV msec : ℚ) (prio : ℤ) :
    World × ℕ :=
  match fuel with
  | 0 => (w, 0)
  | fuel + 1 =>
    match lookupTrack w piece with
    | none => (w, 0)
    | some t =>
      let arb : Option World :=
        match t.wfading with
        | some (p, oldFid) =>
          if prio < p then none
          else
            some
              (match oldFid with
              | some ofid => settleW fuel w ofid false
              | none => w)
        | none => some w
      match arb with
      | none => newFut w FStat.rejectedF [] []
      | some w =>
        let w := updTrack w piece (fun t => { t with wfading := some (prio, none) })
        match lookupTrack w piece with
        | none => (w, 0)
        | some t2 =>
          if nearGain toV t2.wgain ∨ msec = 0 then
            let w :=
              updTrack w piece
                (fun t => { t with wgain := if t.wmuted then 0 else clamp toV 0 1 })
            let p :=
              newFut w FStat.pendingF
                [WCont.applyFadeDone piece toV, WCont.clearFading piece]
                [WCont.clearFading piece]
            (settleW fuel p.1 p.2 true, p.2)
          else
            let w := updTrack w piece (fun t => { t with wgain := clamp fromV 0 1 })
            let p :=
              newFut w FStat.pendingF
                [WCont.applyFadeDone piece toV, WCont.clearFading piece]
                [WCont.clearFading piece]
            let w := updTrack p.1 piece (fun t => { t with wfading := some (prio, some p.2) })
            (w, p.2)
termination_by structural fuel

/-- `track.cancelFade(priority)` on a library track. -/
def trackCancelFadeW (fuel : ℕ) (w : World) (piece : String) (prio : ℤ) : World :=
  match fuel with
  | 0 => w
  | fuel + 1 =>
    match lookupTrack w piece with
    | none => w
    | some t =>
      match t.wfading with
      | some (p, some fid) => if p ≤ prio then settleW fuel w fid false else w
      | _ => w
termination_by structural fuel

/-- The loop body of `Music.stopNonPlayingTracks` over the library keys:
skip the now-playing track, thunks and stopped tracks; fade the rest to `0`
(fast crossfade, medium priority) and stop them when the fade settles. -/
def stopNPAux (fuel : ℕ) (w : World) (pieces : List String) : World × List ℕ :=
  match fuel with
  | 0 => (w, [])
  | fuel + 1 =>
    match pieces with
    | [] => (w, [])
    | piece :: rest =>
      match lookupTrack w piece with
      | none => stopNPAux fuel w rest
      | some t =>
        if t.loaded = false ∨ w.nowp = some piece ∨ t.wstate = PlayState.stopped then
          stopNPAux fuel w rest
        else
          let p := trackFadeW fuel w piece (if w.mmute then 0 else t.wgain) 0 2500 1
          let w := attachAlwaysW fuel p.1 p.2 (WCont.trackStopIfNotNowPlaying piece)
          let q := stopNPAux fuel w rest
          (q.1, p.2 :: q.2)
termination_by structural fuel

/-- `$.when(promises)`: resolved at once when the list is empty, otherwise a
master future resolved when all parts resolve and rejected when any part
rejects. -/
def whenW (fuel : ℕ) (w : World) (parts : List ℕ) : World × ℕ :=
  match fuel with
  | 0 => (w, 0)
  | fuel + 1 =>
    match parts with
    | [] => newFut w FStat.resolvedF [] []
    | _ =>
      let p := newFut w FStat.pendingF [] []
      (attachParts fuel p.1 parts p.2 parts, p.2)
termination_by structural fuel

def attachParts (fuel : ℕ) (w : World) (todo : List ℕ) (wid : ℕ) (parts : List ℕ) : World :=
  match fuel with
  | 0 => w
  | fuel + 1 =>
    match todo with
    | [] => w
    | q :: rest =>
      let w := attachW fuel w q true (WCont.whenDone wid parts)
      let w := attachW fuel w q false (WCont.whenFail wid)
      attachParts fuel w rest wid parts
termination_by structural fuel

def stopNonPlayingW (fuel : ℕ) (w : World) : World × ℕ :=
  match fuel with
  | 0 => (w, 0)
  | fuel + 1 =>
    let q := stopNPAux fuel w (w.library.map (fun p => p.1))
    whenW fuel q.1 q.2
termination_by structural fuel

/-- `Music.stop()` with no arguments (as `Music.play` calls it). -/
def musicStopW (fuel : ℕ) (w : World) : World × ℕ :=
  match fuel with
  | 0 => (w, 0)
  | fuel + 1 =>
    let np : Option (World × ℕ) :=
      match w.nowp with
      | some piece =>
        match lookupTrack w piece with
        | none => none
        | some _ =>
          let vol := if w.mmute then 0 else w.mvolume
          let p := trackFadeW fuel w piece vol 0 2500 1
          some (attachAlwaysW fuel p.1 p.2 (WCont.trackStopAlways piece), p.2)
      | none => none
    match np with
    | some (w, npid) =>
      let q := stopNonPlayingW fuel w
      let w := { q.1 with mstate := PlayState.stopped }
      whenW fuel w [npid, q.2]
    | none =>
      let q := stopNonPlayingW fuel w
      let p := newFut q.1 FStat.resolvedF [] []
      let w := { p.1 with mstate := PlayState.stopped }
      whenW fuel w [p.2, q.2]

/-- The `_stopping_promise.done` closure of `Music.play`: install the piece
as now playing, stop other still-ringing tracks, cancel any normal-priority
fade on it, set its volume (captured at the `play` call) and start it. -/
def installPieceW (fuel : ℕ) (w : World) (piece : String) (vol : ℚ) : World :=
  match fuel with
  | 0 => w
  | fuel + 1 =>
    let w := { w with nowp := some piece }
    let w := (stopNonPlayingW fuel w).1
    let w := trackCancelFadeW fuel w piece 0
    let w := updTrack w piece (fun t => { t with wgain := clamp vol 0 1 })
    updTrack w piece (fun t => { t with wstate := PlayState.playing })
termination_by structural fuel

end

/-- `nearGain` computes exactly the source's fast-path test
`Math.abs(to - this.gain) < 0.00001`. -/
theorem nearGain_iff (a b : ℚ) : nearGain a b = true ↔ |a - b| < 1/100000 := by
  have hda : (0:ℚ) < (a.den : ℚ) := by
    exact_mod_cast Nat.pos_of_ne_zero a.den_nz
  have hdb : (0:ℚ) < (b.den : ℚ) := by
    exact_mod_cast Nat.pos_of_ne_zero b.den_nz
  have hD : (0:ℚ) < (a.den : ℚ) * (b.den : ℚ) := mul_pos hda hdb
  have fa : ((a.num : ℚ)) = a * (a.den : ℚ) := (div_eq_iff (ne_of_gt hda)).mp (Rat.num_div_den a)
  have fb : ((b.num : ℚ)) = b * (b.den : ℚ) := (div_eq_iff (ne_of_gt hdb)).mp (Rat.num_div_den b)
  have key : ((a.num * (b.den : ℤ) - b.num * (a.den : ℤ) : ℤ) : ℚ) =
      (a - b) * ((a.den : ℚ) * (b.den : ℚ)) := by
    push_cast
    rw [fa, fb]
    ring
  have habs : |((a.num * (b.den : ℤ) - b.num * (a.den : ℤ) : ℤ) : ℚ)| =
      |a - b| * ((a.den : ℚ) * (b.den : ℚ)) := by
    rw [key, abs_mul, abs_of_pos hD]
  rw [nearGain, decide_eq_true_iff]
  constructor
  · intro h
    have hq : (100000:ℚ) * (((a.num * (b.den : ℤ) - b.num * (a.den : ℤ)).natAbs : ℕ) : ℚ) <
        ((a.den : ℚ) * (b.den : ℚ)) := by
      exact_mod_cast h
    rw [Int.cast_natAbs, Int.cast_abs, habs] at hq
    have h1 : (100000 * |a - b|) * ((a.den : ℚ) * (b.den : ℚ)) <
        1 * ((a.den : ℚ) * (b.den : ℚ)) := by
      rw [mul_assoc, one_mul]
      exact hq
    have h2 : 100000 * |a - b| < 1 := (mul_lt_mul_right hD).mp h1
    linarith
  · intro h
    have h2 : (100000:ℚ) * |a - b| < 1 := by linarith
    have h1 : (100000 * |a - b|) * ((a.den : ℚ) * (b.den : ℚ)) <
        1 * ((a.den : ℚ) * (b.den : ℚ)) := (mul_lt_mul_right hD).mpr h2
    rw [mul_assoc, one_mul, ← habs] at h1
    have h3 : (100000:ℚ) * (((a.num * (b.den : ℤ) - b.num * (a.den : ℤ)).natAbs : ℕ) : ℚ) <
        ((a.den : ℚ) * (b.den : ℚ)) := by
      rw [Int.cast_natAbs, Int.cast_abs]
      exact h1
    exact_mod_cast h3

/-- `Music.load`: invoke the lazy factory on first access, then apply the
module volume and mute flag to the freshly built track. -/
def loadW (w : World) (piece : String) : World :=
  match lookupTrack w piece with
  | none => w
  | some t =>
    if t.loaded then w
    else
      let w :=
        updTrack w piece (fun t =>
          { t with loaded := true, wgain := clamp w.mvolume 0 1 })
      if w.mmute then updTrack w piece (fun t => { t with wmuted := true }) else w

/-- The final interval tick (`t ≥ 1`) of a track's in-flight fade ramp:
resolves the pending promise.  An environment event. -/
def fadeTickW (fuel : ℕ) (w : World) (piece : String) : World :=
  match lookupTrack w piece with
  | none => w
  | some t =>
    match t.wfading with
    | some (_, some fid) => settleW fuel w fid true
    | _ => w

/-- `Music.play(piece)` (lines 50-92): the already-playing fast path returns
a fresh resolved deferred; otherwise load the piece, reject any in-flight
`_stopping_promise`, create a new one, start `Music.stop()` and chain its
completion into the new stopping promise, then (when the piece exists)
register installation of the new piece on that promise and mark the module
playing.  Returns the stopping promise. -/
def musicPlayW (fuel : ℕ) (w : World) (piece : String) : World × ℕ :=
  match fuel with
  | 0 => (w, 0)
  | fuel + 1 =>
    if w.nowp = some piece ∧ w.mstate = PlayState.playing then
      newFut w FStat.resolvedF [] []
    else
      let w := loadW w piece
      let musicExists := (lookupTrack w piece).isSome
      let vol := if w.mmute then 0 else w.mvolume
      let w :=
        match w.stoppingId with
        | some sid => settleW fuel w sid false
        | none => w
      let p := newFut w FStat.pendingF [] []
      let w := { p.1 with stoppingId := some p.2 }
      let q := musicStopW fuel w
      let w := attachW fuel q.1 q.2 true (WCont.resolveStopping p.2)
      if musicExists then
        let w := attachW fuel w p.2 true (WCont.installPiece piece vol)
        let w := { w with mstate := PlayState.playing }
        (w, p.2)
      else (w, p.2)

/-- A loaded, stopped library track at full gain. -/
def wtrackStopped : WTrack :=
  { loaded := true, wstate := PlayState.stopped, wgain := 1, wmuted := false, wfading := none }

/-- The scenario start: pieces `A` and `B` idle in the library while `C` is
playing. -/
def w0 : World :=
  { library :=
      [("A", wtrackStopped), ("B", wtrackStopped),
        ("C", { wtrackStopped with wstate := PlayState.playing })],
    nowp := some "C", mvolume := 1, mmute := false, mstate := PlayState.playing,
    stoppingId := none, wfutures := [], wnext := 0 }

/-- The pieces whose library track is currently playing. -/
def activePieces (w : World) : List String :=
  (w.library.filter (fun p => p.2.wstate = PlayState.playing)).map (fun p => p.1)

example : activePieces w0 = ["C"] := by decide

/-- The world after the first switch request, `Music.play("A")` on `w0`. -/
def c6w1 : World :=
  (musicPlayW 25 w0 "A").1

/-- The stopping promise returned by the first switch request. -/
def c6sidA : ℕ :=
  (musicPlayW 25 w0 "A").2

/-- The world after the second switch request, `Music.play("B")`, issued
before the first transition settles. -/
def c6w2 : World :=
  (musicPlayW 25 c6w1 "B").1

/-- The stopping promise returned by the second switch request. -/
def c6sidB : ℕ :=
  (musicPlayW 25 c6w1 "B").2

/-- The scenario end state: the crossfade on the outgoing piece `C` reaches
its final tick and its promise resolves. -/
def c6w3 : World :=
  fadeTickW 25 c6w2 "C"

set_option maxRecDepth 8000 in
/-- C6: `Music.play` keeps at most one transition active.  First, for every
world whose now-playing piece and playing state match the request (and whose
futures heap is fresh), the call returns a fresh resolved future and leaves
the library, the now-playing piece, the module state and the in-flight
stopping promise unchanged.  Second, in the two-back-to-back-switches
scenario (`play "A"` then `play "B"` on `w0` before the first transition
settles, then the outgoing crossfade completes): the two returned futures
are distinct, the stale first future is already rejected when the second
call returns, and once everything settles the first future is rejected, the
second resolved, `B` is the now-playing piece and the only active one. -/
theorem c6_theorem :
    (∀ (fuel : ℕ) (w : World) (piece : String),
        w.nowp = some piece → w.mstate = PlayState.playing →
        (∀ f ∈ w.wfutures, f.wfid ≠ w.wnext) →
        (musicPlayW (fuel + 1) w piece).1.library = w.library ∧
        (musicPlayW (fuel + 1) w piece).1.nowp = w.nowp ∧
        (musicPlayW (fuel + 1) w piece).1.mstate = w.mstate ∧
        (musicPlayW (fuel + 1) w piece).1.stoppingId = w.stoppingId ∧
        statusOf (musicPlayW (fuel + 1) w piece).1 (musicPlayW (fuel + 1) w piece).2 =
          some FStat.resolvedF) ∧
    (c6sidA ≠ c6sidB ∧
      statusOf c6w2 c6sidA = some FStat.rejectedF ∧
      statusOf c6w3 c6sidA = some FStat.rejectedF ∧
      statusOf c6w3 c6sidB = some FStat.resolvedF ∧
      c6w3.nowp = some "B" ∧
      activePieces c6w3 = ["B"]) := by
  constructor
  · intro fuel w piece h1 h2 hfresh
    have hmain : musicPlayW (fuel + 1) w piece = newFut w FStat.resolvedF [] [] := by
      simp only [musicPlayW]
      rw [if_pos ⟨h1, h2⟩]
    rw [hmain]
    refine ⟨rfl, rfl, rfl, rfl, ?_⟩
    simp only [newFut, statusOf, findFut]
    rw [List.find?_append]
    have hnone : w.wfutures.find? (fun f => f.wfid = w.wnext) = none := by
      apply List.find?_eq_none.mpr
      intro f hf
      simpa using hfresh f hf
    rw [hnone]
    simp [List.find?]
  · decide

/-- C6, witness: the same-piece fast path of the amended theorem applied to
`w0` and its now-playing piece `C`: the call resolves at once and changes
nothing. -/
theorem c6_witness :
    (musicPlayW 6 w0 "C").1.nowp = some "C" ∧
    statusOf (musicPlayW 6 w0 "C").1 (musicPlayW 6 w0 "C").2 = some FStat.resolvedF := by
  have h := c6_theorem.1 5 w0 "C" rfl rfl (by decide)
  exact ⟨h.2.1.trans rfl, h.2.2.2.2⟩
